import Mathlib

/-!
Shallow embedding of the model serving and optimization notebook
(src/model_serving/model-optimization.ipynb).  Notebook cells become pure
Lean functions; external effects (file system, HTTP, the tensorflow
tooling) become explicit parameters and event traces.
-/

namespace ModelOpt

/-- Errors that the modelled notebook code can raise, mirroring the Python
exceptions raised by the corresponding library calls. -/
inductive PyErr
  | httpError (status : Nat)
  | keyError (key : String)
  | valueError
  | typeError
  | indexError
  | notFoundError
  deriving DecidableEq

/-- Check whether the first character of a string is the slash separator. -/
def startsWithSlash (s : String) : Bool := s.toList.head? == some '/'

/-- Check whether the last character of a string is the slash separator. -/
def endsWithSlash (s : String) : Bool := s.toList.getLast? == some '/'

/-- Model of os.path.join on two components, following posixpath.join: an
absolute second component replaces the first; otherwise the separator is
inserted unless the first component is empty or already ends with it. -/
def pathJoin (a b : String) : String :=
  if startsWithSlash b then b
  else if a = "" ∨ endsWithSlash a then a ++ b
  else a ++ "/" ++ b

/-- Value of the tensorflow constant tag_constants.SERVING. -/
def tag_constants_SERVING : String := "serve"

/-- Arguments that the notebook freeze_graph function hands to the external
tensorflow freeze_graph utility.  The remaining keyword arguments of the
source call are the fixed placeholders None and False and are omitted.  The
field init_nodes models the source keyword argument for initializer nodes. -/
structure FreezeGraphCall where
  input_saved_model_dir : String
  output_graph : String
  saved_model_tags : String
  output_node_names : String
  init_nodes : String
  deriving DecidableEq

/-- Model of the freeze_graph notebook function: it only assembles the
arguments of one call to the external tensorflow freeze_graph utility. -/
def freeze_graph (saved_model_dir : String) : FreezeGraphCall :=
  ⟨saved_model_dir,
   pathJoin saved_model_dir "freezed_model.pb",
   tag_constants_SERVING,
   "softmax/Softmax",
   ""⟩

/-- One node of a serialized computation graph: a name and an op type. -/
structure NodeDef where
  name : String
  op : String
  deriving DecidableEq

/-- A serialized computation graph: its list of nodes. -/
structure GraphDef where
  node : List NodeDef
  deriving DecidableEq

/-- File system fragment holding serialized GraphDef files, mapping a path
to its contents. -/
abbrev FileSys : Type := String → Option GraphDef

/-- Write one GraphDef file, leaving every other path unchanged. -/
def fsWrite (fs : FileSys) (p : String) (g : GraphDef) : FileSys :=
  fun q => if q = p then some g else fs q

/-- Modelled from the spec: the helper get_graph_def_from_file is imported
from lib/utils.py, which is not among the sources; per the notebook
narrative it parses a serialized GraphDef file into a GraphDef, so it is
modelled as a pure read of the file system that raises when the file is
missing. -/
def get_graph_def_from_file (fs : FileSys) (p : String) : Except PyErr GraphDef :=
  match fs p with
  | none => .error .notFoundError
  | some g => .ok g

/-- Arguments handed to the external TransformGraph tool. -/
structure TransformGraphCall where
  graph : GraphDef
  input_names : List String
  output_names : List String
  transforms : List String
  deriving DecidableEq

/-- Model of the optimize_graph notebook function.  The external
TransformGraph tool is the parameter tg.  The function reads the input
graph from model_dir/graph_filename, hands it to the tool together with
the empty input name list, the fixed output name list and the transforms
argument, and writes the result to optimised_model.pb in model_dir.  The
returned TransformGraphCall records the arguments handed to the tool. -/
def optimize_graph (tg : GraphDef → List String → List String → List String → GraphDef)
    (fs : FileSys) (model_dir graph_filename : String) (transforms : List String) :
    Except PyErr (TransformGraphCall × FileSys) :=
  match get_graph_def_from_file fs (pathJoin model_dir graph_filename) with
  | .error e => .error e
  | .ok graph_def =>
    let input_names : List String := []
    let output_names : List String := ["softmax/Softmax"]
    let optimised := tg graph_def input_names output_names transforms
    .ok (⟨graph_def, input_names, output_names, transforms⟩,
         fsWrite fs (pathJoin model_dir "optimised_model.pb") optimised)

/-- The fixed list of transform pass names defined by the notebook cell
that invokes optimize_graph. -/
def notebook_transforms : List String :=
  ["remove_nodes(op=Identity)",
   "fold_constants(ignore_errors=true)",
   "fold_batch_norms",
   "fuse_resize_pad_and_conv",
   "quantize_weights",
   "quantize_nodes",
   "merge_duplicate_nodes",
   "strip_unused_nodes",
   "sort_by_execution_order"]

/-- Arguments of one call to tf.saved_model.simple_save: the export
directory and the input and output tensors, each given as a binding of a
signature key to a tensor name. -/
structure SimpleSaveCall where
  export_dir : String
  inputs : List (String × String)
  outputs : List (String × String)
  deriving DecidableEq

/-- File system operations performed by the directory writing cells. -/
inductive FsOp
  | deleteRecursively (path : String)
  | exportSavedModel (dir : String)
  | simpleSave (call : SimpleSaveCall)
  deriving DecidableEq

/-- Model of tf.gfile.DeleteRecursively: deleting a missing path raises a
not found error. -/
def gfile_DeleteRecursively (dirExists : String → Bool) (p : String) : Except PyErr Unit :=
  if dirExists p then .ok () else .error .notFoundError

/-- Model of convert_graph_def_to_saved_model: a guarded recursive delete
of the target directory, then re-import of the GraphDef file and re-export
via tf.saved_model.simple_save with one input per Placeholder node of the
graph and the fixed softmax output tensor.  Returns the trace of file
system operations together with the simple_save call, or with the error of
the graph file read. -/
def convert_graph_def_to_saved_model (fs : FileSys) (dirExists : String → Bool)
    (graph_filepath export_dir : String) : List FsOp × Except PyErr SimpleSaveCall :=
  let pre : List FsOp :=
    if dirExists export_dir then [FsOp.deleteRecursively export_dir] else []
  match get_graph_def_from_file fs graph_filepath with
  | .error e => (pre, .error e)
  | .ok graph_def =>
    let call : SimpleSaveCall :=
      ⟨export_dir,
       (graph_def.node.filter (fun n => n.op == "Placeholder")).map
         (fun n => (n.name, n.name ++ ":0")),
       [("softmax", "softmax/Softmax:0")]⟩
    (pre ++ [FsOp.simpleSave call], .ok call)

/-- Model of the export notebook cell: the export directory is
model_dir/export; if it exists it is recursively deleted, and then
estimator.export_savedmodel writes into it. -/
def export_model_cell (dirExists : String → Bool) (model_dir : String) : List FsOp :=
  let export_dir := pathJoin model_dir "export"
  (if dirExists export_dir then [FsOp.deleteRecursively export_dir] else [])
    ++ [FsOp.exportSavedModel export_dir]

/-- One instance of the prediction payload: a two dimensional numeric
array, as produced by tolist on one evaluation image. -/
abbrev Instance := List (List ℚ)

/-- The parsed JSON body of an HTTP response: the predictions field when
the body is an object carrying one, and none otherwise. -/
structure JsonBody where
  predictions : Option (List (List ℚ))
  deriving DecidableEq

/-- An HTTP response: a status code and a parsed JSON body. -/
structure HttpResponse where
  status : Nat
  body : JsonBody
  deriving DecidableEq

/-- A JSON POST request: the url and the payload object, given as a list
of key bindings. -/
structure PostRequest where
  url : String
  payload : List (String × List Instance)
  deriving DecidableEq

/-- The notebook constant SERVER_URL. -/
def SERVER_URL : String := "http://localhost:8501"

/-- The url that predict posts to for a given model version. -/
def predictUrl (version : Nat) : String :=
  SERVER_URL ++ "/v1/models/mnist/versions/" ++ toString version ++ ":predict"

/-- The POST request predict issues: the JSON payload is exactly one key,
instances, bound to the given instance list. -/
def predictCall (instances : List Instance) (version : Nat) : PostRequest :=
  ⟨predictUrl version, [("instances", instances)]⟩

/-- Model of requests raise_for_status: it raises exactly for the client
and server error status codes 400 to 599. -/
def raisesForStatus (status : Nat) : Bool := decide (400 ≤ status ∧ status < 600)

/-- Success statuses in the sense of HTTP: the 2xx codes. -/
def isSuccessStatus (status : Nat) : Bool := decide (200 ≤ status ∧ status < 300)

/-- Inner loop of numpy argmax: fold over the remaining elements keeping
the current maximum value, its index, and the index of the next element.
A later element replaces the current maximum only when strictly greater,
so the first occurrence of the maximum wins, as in numpy. -/
def argmaxGo : List ℚ → ℚ → Nat → Nat → ℚ × Nat
  | [], bv, best, _ => (bv, best)
  | y :: ys, bv, best, i =>
    if bv < y then argmaxGo ys y i (i + 1) else argmaxGo ys bv best (i + 1)

/-- Index returned by numpy argmax on a nonempty list; 0 on the empty
list, where numpy instead raises. -/
def argmaxIdx : List ℚ → Nat
  | [] => 0
  | x :: rest => (argmaxGo rest x 0 1).2

/-- Model of np.argmax as used by predict: it raises a value error on an
empty sequence and otherwise returns the index of the first maximum. -/
def argmaxPy (xs : List ℚ) : Except PyErr Nat :=
  match xs with
  | [] => .error .valueError
  | _ :: _ => .ok (argmaxIdx xs)

/-- The list comprehension of predict: one argmax per prediction, in
order, raising at the first failing element. -/
def argmaxList : List (List ℚ) → Except PyErr (List Nat)
  | [] => .ok []
  | p :: ps =>
    match argmaxPy p with
    | .error e => .error e
    | .ok i =>
      match argmaxList ps with
      | .error e => .error e
      | .ok is => .ok (i :: is)

/-- Processing of one HTTP response inside predict: raise_for_status,
then read the predictions field of the JSON body, then take one argmax
per prediction. -/
def predictResponseToIds (res : HttpResponse) : Except PyErr (List Nat) :=
  if raisesForStatus res.status then .error (.httpError res.status)
  else
    match res.body.predictions with
    | none => .error (.keyError "predictions")
    | some preds => argmaxList preds

/-- Model of the predict notebook function, parametrized by the server.
It returns the list of requests it issued paired with the returned class
ids or the raised error. -/
def predict (server : PostRequest → HttpResponse) (instances : List Instance)
    (version : Nat) : List PostRequest × Except PyErr (List Nat) :=
  let req := predictCall instances version
  ([req], predictResponseToIds (server req))

/-- Environment of one benchmark_inference run: the response to the n-th
issued request, the two wall clock readings taken by the two utcnow calls,
and the evaluation data images. -/
structure BenchEnv where
  respond : Nat → HttpResponse
  t0 : ℚ
  t1 : ℚ
  evalData : Nat → Instance

/-- Events of a benchmark run, in order: issued requests and clock
readings. -/
inductive BenchEvent
  | request (r : PostRequest)
  | clockRead (t : ℚ)
  deriving DecidableEq

/-- The values benchmark_inference reports on success: the elapsed time,
the average latency per batch, the length of the last output and its
first element. -/
structure BenchResult where
  elapsed : ℚ
  avgLatency : ℚ
  batchLen : Nat
  firstOutput : Nat
  deriving DecidableEq

/-- The timed loop of benchmark_inference: k iterations remain, idx is
the index of the next issued request, and acc is the output of the last
completed iteration.  Each iteration runs predict on the full instance
list: it issues predictCall instances version and processes the response
via predictResponseToIds, exactly as predict does, with env.respond idx
as the response to the idx-th issued request.  A failing iteration stops
the loop and propagates its error. -/
def benchLoop (env : BenchEnv) (version : Nat) (instances : List Instance) :
    Nat → Nat → Option (List Nat) → List BenchEvent × Except PyErr (Option (List Nat))
  | 0, _, acc => ([], .ok acc)
  | k + 1, idx, _ =>
    match predictResponseToIds (env.respond idx) with
    | .error e => ([BenchEvent.request (predictCall instances version)], .error e)
    | .ok out =>
      let r := benchLoop env version instances k (idx + 1) (some out)
      (BenchEvent.request (predictCall instances version) :: r.1, r.2)

/-- Tail of benchmark_inference after the timed loop: the second clock
reading and the reporting.  When the loop raised, its error propagates
before the second utcnow call.  Otherwise the source reads the length of
the last output, which raises a type error when the loop never ran, then
prints elapsed time and elapsed divided by rpt as the average latency per
batch, and finally reads the first element of the output, which raises an
index error when it is empty. -/
def benchFinish (env : BenchEnv) (rpt : Nat) (evs : List BenchEvent)
    (lres : Except PyErr (Option (List Nat))) :
    List BenchEvent × Except PyErr BenchResult :=
  match lres with
  | .error e => (evs, .error e)
  | .ok none => (evs ++ [BenchEvent.clockRead env.t1], .error .typeError)
  | .ok (some []) => (evs ++ [BenchEvent.clockRead env.t1], .error .indexError)
  | .ok (some (o :: out)) =>
    (evs ++ [BenchEvent.clockRead env.t1],
     .ok ⟨env.t1 - env.t0, (env.t1 - env.t0) / (rpt : ℚ), (o :: out).length, o⟩)

/-- Model of benchmark_inference: build the instance list from the first
batch evaluation images, issue one warm up predict on the first instance
only, read the clock, run the timed loop rpt times, and finish with the
second clock reading and the reporting.  The source parameter named
repeat is rendered rpt. -/
def benchmark_inference (env : BenchEnv) (version batch rpt : Nat) :
    List BenchEvent × Except PyErr BenchResult :=
  let instances := (List.range batch).map env.evalData
  let warmReq := predictCall (instances.take 1) version
  match predictResponseToIds (env.respond 0) with
  | .error e => ([BenchEvent.request warmReq], .error e)
  | .ok _ =>
    let lr := benchLoop env version instances rpt 1 none
    benchFinish env rpt
      (BenchEvent.request warmReq :: BenchEvent.clockRead env.t0 :: lr.1) lr.2

/-- Whether an Except value is a success. -/
def isOkE {ε α : Type} : Except ε α → Bool
  | .ok _ => true
  | .error _ => false

/-- The requests occurring in a benchmark event trace, in order. -/
def requestsOf (evs : List BenchEvent) : List PostRequest :=
  evs.filterMap (fun e =>
    match e with
    | BenchEvent.request r => some r
    | BenchEvent.clockRead _ => none)

/-- Split a character list at every slash. -/
def splitOnSlash : List Char → List (List Char)
  | [] => [[]]
  | c :: cs =>
    if c = '/' then [] :: splitOnSlash cs
    else
      match splitOnSlash cs with
      | [] => [[c]]
      | s :: r => (c :: s) :: r

/-- One decimal digit of a character, when it is one. -/
def decDigit? (c : Char) : Option Nat :=
  if '0' ≤ c ∧ c ≤ '9' then some (c.toNat - Char.toNat '0') else none

/-- Accumulate decimal digits into a number, failing on a non digit. -/
def digitsToNatAux : List Char → Nat → Option Nat
  | [], acc => some acc
  | c :: cs, acc =>
    match decDigit? c with
    | none => none
    | some d => digitsToNatAux cs (acc * 10 + d)

/-- Read a nonempty character list as a decimal number. -/
def digitsToNat? : List Char → Option Nat
  | [] => none
  | c :: cs => digitsToNatAux (c :: cs) 0

/-- Parse an absolute path of exactly three components as a versioned
serving path: the base directory, the model name, and the integer
version. -/
def parseVersionedPath (p : String) : Option (String × String × Nat) :=
  match splitOnSlash p.toList with
  | [root, base, model, ver] =>
    if root = [] then
      (digitsToNat? ver).map (fun v => (String.mk base, String.mk model, v))
    else none
  | _ => none

/-- The pipeline stages whose artifacts are placed under the serving
base directory. -/
inductive PipelineStage
  | exported
  | frozen
  | optimised
  deriving DecidableEq

/-- The destination directories the notebook hands to the serving
process: the bash cell copies the exported SavedModel into
/serving/mnist/1, and the two convert_graph_def_to_saved_model calls
write the frozen and the optimised model to /serving/mnist/2 and
/serving/mnist/3. -/
def servingDestinations : List (PipelineStage × String) :=
  [(PipelineStage.exported, "/serving/mnist/1"),
   (PipelineStage.frozen, "/serving/mnist/2"),
   (PipelineStage.optimised, "/serving/mnist/3")]

/-- A TransformGraph behavior returning its input unchanged. -/
def idTg : GraphDef → List String → List String → List String → GraphDef :=
  fun g _ _ _ => g

/-- A TransformGraph behavior returning a fixed graph. -/
def constTg (g : GraphDef) : GraphDef → List String → List String → List String → GraphDef :=
  fun _ _ _ _ => g

/-- The empty graph. -/
def emptyGraph : GraphDef := ⟨[]⟩

/-- A one node graph distinct from the empty graph. -/
def oneNodeGraph : GraphDef := ⟨[⟨"n", "Const"⟩]⟩

/-- A file system holding one optimised model file. -/
def cexFsOpt : FileSys :=
  fun p => if p = "m/optimised_model.pb" then some emptyGraph else none

/-- A file system holding one frozen model file. -/
def cexFsFreezed : FileSys :=
  fun p => if p = "m/freezed_model.pb" then some emptyGraph else none

/-- A graph with one Placeholder node of the given name and a softmax
node. -/
def phGraph (nm : String) : GraphDef :=
  ⟨[⟨nm, "Placeholder"⟩, ⟨"softmax/Softmax", "Softmax"⟩]⟩

/-- A file system holding one graph file with the given Placeholder
name. -/
def cexFsPh (nm : String) : FileSys :=
  fun p => if p = "g.pb" then some (phGraph nm) else none

/-- A directory oracle under which no path exists. -/
def noDirs : String → Bool := fun _ => false

/-- A directory oracle under which every path exists. -/
def allDirs : String → Bool := fun _ => true

/-- A success response carrying one two class prediction. -/
def okResponse : HttpResponse := ⟨200, ⟨some [[0, 1]]⟩⟩

/-- A success response whose body carries no predictions field. -/
def noPredsResponse : HttpResponse := ⟨200, ⟨none⟩⟩

/-- A server error response. -/
def badResponse : HttpResponse := ⟨500, ⟨none⟩⟩

/-- A server answering every request with the same response. -/
def constServer (r : HttpResponse) : PostRequest → HttpResponse := fun _ => r

/-- A benchmark environment answering every request successfully. -/
def okEnv : BenchEnv := ⟨fun _ => okResponse, 0, 5, fun _ => [[0]]⟩

/-- A benchmark environment failing exactly at the k-th issued request. -/
def failAtEnv (k : Nat) : BenchEnv :=
  ⟨fun n => if n = k then badResponse else okResponse, 0, 5, fun _ => [[0]]⟩

/-- Invariant of the argmax fold: if best indexes the value bv in the full
list, the elements before position i are all at most bv, and the elements
from position i on are the remaining worklist, then the fold returns an
index of its returned value and that value bounds the whole list. -/
theorem argmaxGo_spec (ys : List ℚ) :
    ∀ (full : List ℚ) (bv : ℚ) (best i : Nat),
      full.drop i = ys → full[best]? = some bv → (∀ x ∈ full.take i, x ≤ bv) →
      full[(argmaxGo ys bv best i).2]? = some (argmaxGo ys bv best i).1 ∧
      ∀ x ∈ full, x ≤ (argmaxGo ys bv best i).1 := by
  induction ys with
  | nil =>
    intro full bv best i hdrop hget htake
    have hfull : full.take i = full := by
      have hlen : full.length ≤ i := by
        have hl := congrArg List.length hdrop
        simp [List.length_drop] at hl
        omega
      exact List.take_of_length_le hlen
    exact ⟨hget, fun x hx => htake x (by rw [hfull]; exact hx)⟩
  | cons y ys ih =>
    intro full bv best i hdrop hget htake
    have hy : full[i]? = some y := by
      have h0 : (full.drop i)[0]? = some y := by rw [hdrop]; simp
      rw [List.getElem?_drop] at h0
      simpa using h0
    have hdrop2 : full.drop (i + 1) = ys := by
      have hh : (full.drop i).drop 1 = ys := by rw [hdrop]; rfl
      rwa [List.drop_drop] at hh
    have htake2 : full.take (i + 1) = full.take i ++ [y] := by
      rw [List.take_succ, hy]; rfl
    by_cases hlt : bv < y
    · rw [show argmaxGo (y :: ys) bv best i = argmaxGo ys y i (i + 1) from by
        simp [argmaxGo, hlt]]
      refine ih full y i (i + 1) hdrop2 hy ?_
      intro x hx
      rw [htake2] at hx
      rcases List.mem_append.mp hx with hx | hx
      · exact le_of_lt (lt_of_le_of_lt (htake x hx) hlt)
      · have hx' : x = y := by simpa using hx
        exact le_of_eq hx'
    · rw [show argmaxGo (y :: ys) bv best i = argmaxGo ys bv best (i + 1) from by
        simp [argmaxGo, hlt]]
      refine ih full bv best (i + 1) hdrop2 hget ?_
      intro x hx
      rw [htake2] at hx
      rcases List.mem_append.mp hx with hx | hx
      · exact htake x hx
      · have hx' : x = y := by simpa using hx
        exact hx' ▸ le_of_not_lt hlt

/-- On a nonempty list, argmaxIdx is the index of a maximal element. -/
theorem argmaxIdx_spec (xs : List ℚ) (h : xs ≠ []) :
    ∃ v, xs[argmaxIdx xs]? = some v ∧ ∀ x ∈ xs, x ≤ v := by
  cases xs with
  | nil => exact absurd rfl h
  | cons x rest =>
    have hs := argmaxGo_spec rest (x :: rest) x 0 1 rfl (by simp) ?_
    · exact ⟨(argmaxGo rest x 0 1).1, hs.1, hs.2⟩
    · intro z hz
      have hz' : z = x := by simpa using hz
      exact le_of_eq hz'

/-- When every prediction is nonempty the comprehension succeeds and
returns one argmax per prediction, in order. -/
theorem argmaxList_ok (preds : List (List ℚ)) (h : ∀ p, p ∈ preds → p ≠ []) :
    argmaxList preds = .ok (preds.map argmaxIdx) := by
  induction preds with
  | nil => rfl
  | cons p ps ih =>
    have hp : p ≠ [] := h p (List.mem_cons_self p ps)
    have hps := ih (fun q hq => h q (List.mem_cons_of_mem p hq))
    cases p with
    | nil => exact absurd rfl hp
    | cons a as => simp [argmaxList, argmaxPy, hps]

/-- C6: freeze_graph invokes the external freeze utility with the fixed
output node name softmax/Softmax and directs the frozen graph to the
file freezed_model.pb inside saved_model_dir. -/
theorem C6_freeze_graph_fixed_args (saved_model_dir : String) :
    (freeze_graph saved_model_dir).output_node_names = "softmax/Softmax" ∧
    (freeze_graph saved_model_dir).input_saved_model_dir = saved_model_dir ∧
    (freeze_graph saved_model_dir).saved_model_tags = tag_constants_SERVING ∧
    (freeze_graph saved_model_dir).output_graph = pathJoin saved_model_dir "freezed_model.pb" ∧
    (saved_model_dir ≠ "" → endsWithSlash saved_model_dir = false →
      (freeze_graph saved_model_dir).output_graph = saved_model_dir ++ "/freezed_model.pb") := by
  refine ⟨rfl, rfl, rfl, rfl, fun hne hsl => ?_⟩
  show pathJoin saved_model_dir "freezed_model.pb" = _
  unfold pathJoin
  rw [if_neg (by decide), if_neg (by simp [hne, hsl])]
  rw [String.append_assoc]
  rfl

/-- Witness for C6 at a concrete export directory. -/
theorem C6_freeze_graph_fixed_args_witness :
    (freeze_graph "/exp/1").output_node_names = "softmax/Softmax" ∧
    (freeze_graph "/exp/1").output_graph = "/exp/1" ++ "/freezed_model.pb" :=
  ⟨(C6_freeze_graph_fixed_args "/exp/1").1,
   (C6_freeze_graph_fixed_args "/exp/1").2.2.2.2 (by decide) (by decide)⟩

/-- C8: every serving destination of the pipeline parses as an absolute
base slash model slash version path with base serving and model mnist,
the exported, frozen and optimised artifacts going to versions 1, 2 and
3, which are pairwise distinct. -/
theorem C8_versioned_serving_layout :
    servingDestinations.map (fun sd => parseVersionedPath sd.2) =
      [some ("serving", "mnist", 1), some ("serving", "mnist", 2),
       some ("serving", "mnist", 3)] ∧
    servingDestinations.map Prod.fst =
      [PipelineStage.exported, PipelineStage.frozen, PipelineStage.optimised] ∧
    (servingDestinations.filterMap
      (fun sd => (parseVersionedPath sd.2).map (fun t => t.2.2))).Nodup :=
  ⟨by decide, by decide, by decide⟩

/-- C1 fails as stated: an invocation of optimize_graph with the empty
transforms list hands the external tool the empty list rather than the
fixed notebook list, so the passes handed over are chosen by the
caller. -/
theorem C1_counterexample :
    (optimize_graph idTg cexFsFreezed "m" "freezed_model.pb" []).map
        (fun r => r.1.transforms) = .ok [] ∧
    ([] : List String) ≠ notebook_transforms :=
  ⟨rfl, by decide⟩

/-- C1 amended: optimize_graph hands TransformGraph exactly the
transforms list supplied by its caller, together with the fixed empty
input name list and the fixed output name list; the notebook invocation
supplies the fixed hardcoded pass list, so there the tool receives
exactly that list. -/
theorem C1_amended_transforms_caller_chosen
    (tg : GraphDef → List String → List String → List String → GraphDef)
    (fs : FileSys) (model_dir graph_filename : String) (transforms : List String)
    (call : TransformGraphCall) (fs2 : FileSys)
    (h : optimize_graph tg fs model_dir graph_filename transforms = .ok (call, fs2)) :
    call.transforms = transforms ∧ call.input_names = [] ∧
    call.output_names = ["softmax/Softmax"] := by
  cases hg : get_graph_def_from_file fs (pathJoin model_dir graph_filename) with
  | error e => simp [optimize_graph, hg] at h
  | ok g =>
    simp only [optimize_graph, hg, Except.ok.injEq, Prod.mk.injEq] at h
    obtain ⟨h1, _⟩ := h
    subst h1
    exact ⟨rfl, rfl, rfl⟩

/-- Witness for the amended C1 at the notebook invocation. -/
theorem C1_amended_transforms_caller_chosen_witness :
    (⟨emptyGraph, [], ["softmax/Softmax"], notebook_transforms⟩ :
        TransformGraphCall).transforms = notebook_transforms :=
  (C1_amended_transforms_caller_chosen idTg cexFsFreezed "m" "freezed_model.pb"
      notebook_transforms
      ⟨emptyGraph, [], ["softmax/Softmax"], notebook_transforms⟩
      (fsWrite cexFsFreezed "m/optimised_model.pb"
        (idTg emptyGraph [] ["softmax/Softmax"] notebook_transforms))
      rfl).1

/-- C10 fails as stated: invoking optimize_graph with the input file
name optimised_model.pb makes the output overwrite the input, so the
contents of the input file change. -/
theorem C10_counterexample :
    (optimize_graph (constTg oneNodeGraph) cexFsOpt "m" "optimised_model.pb" []).map
        (fun r => r.2 "m/optimised_model.pb") = .ok (some oneNodeGraph) ∧
    cexFsOpt "m/optimised_model.pb" = some emptyGraph ∧
    oneNodeGraph ≠ emptyGraph :=
  ⟨rfl, rfl, by decide⟩

/-- C10 amended: optimize_graph writes exactly one file,
optimised_model.pb in model_dir, leaving every other path unchanged; in
particular whenever the input path differs from that output path, as in
the notebook invocation on freezed_model.pb, the contents of the input
file are unchanged. -/
theorem C10_amended_frame
    (tg : GraphDef → List String → List String → List String → GraphDef)
    (fs : FileSys) (model_dir graph_filename : String) (transforms : List String)
    (call : TransformGraphCall) (fs2 : FileSys)
    (h : optimize_graph tg fs model_dir graph_filename transforms = .ok (call, fs2)) :
    (∀ p, p ≠ pathJoin model_dir "optimised_model.pb" → fs2 p = fs p) ∧
    (pathJoin model_dir graph_filename ≠ pathJoin model_dir "optimised_model.pb" →
      fs2 (pathJoin model_dir graph_filename) = fs (pathJoin model_dir graph_filename)) := by
  cases hg : get_graph_def_from_file fs (pathJoin model_dir graph_filename) with
  | error e => simp [optimize_graph, hg] at h
  | ok g =>
    simp only [optimize_graph, hg, Except.ok.injEq, Prod.mk.injEq] at h
    obtain ⟨_, h2⟩ := h
    subst h2
    refine ⟨fun p hp => ?_, fun hne => ?_⟩
    · simp [fsWrite, hp]
    · simp [fsWrite, hne]

/-- Witness for the amended C10 at the notebook input file name. -/
theorem C10_amended_frame_witness :
    fsWrite cexFsFreezed "m/optimised_model.pb"
        (constTg oneNodeGraph emptyGraph [] ["softmax/Softmax"] [])
        "m/freezed_model.pb"
      = cexFsFreezed "m/freezed_model.pb" :=
  (C10_amended_frame (constTg oneNodeGraph) cexFsFreezed "m" "freezed_model.pb" []
      ⟨emptyGraph, [], ["softmax/Softmax"], []⟩
      (fsWrite cexFsFreezed "m/optimised_model.pb"
        (constTg oneNodeGraph emptyGraph [] ["softmax/Softmax"] []))
      rfl).2 (by decide)

/-- C2: both directory writing operations guard the recursive delete on
existence of the target: when it exists the trace deletes it first and
only then writes; when it is missing no delete occurs; every delete in a
trace is on an existing path, so the modelled gfile delete never raises;
and the conversion can fail only because the input graph file is
missing, never because of a missing target directory. -/
theorem C2_guarded_overwrite (dirExists : String → Bool) (model_dir : String)
    (fs : FileSys) (graph_filepath export_dir : String) :
    (dirExists (pathJoin model_dir "export") = true →
      export_model_cell dirExists model_dir =
        [FsOp.deleteRecursively (pathJoin model_dir "export"),
         FsOp.exportSavedModel (pathJoin model_dir "export")]) ∧
    (dirExists (pathJoin model_dir "export") = false →
      export_model_cell dirExists model_dir =
        [FsOp.exportSavedModel (pathJoin model_dir "export")]) ∧
    (∀ p, FsOp.deleteRecursively p ∈ export_model_cell dirExists model_dir →
      gfile_DeleteRecursively dirExists p = .ok ()) ∧
    (dirExists export_dir = true →
      (convert_graph_def_to_saved_model fs dirExists graph_filepath export_dir).1.head? =
        some (FsOp.deleteRecursively export_dir)) ∧
    (dirExists export_dir = false → ∀ p,
      FsOp.deleteRecursively p ∉
        (convert_graph_def_to_saved_model fs dirExists graph_filepath export_dir).1) ∧
    (∀ p, FsOp.deleteRecursively p ∈
        (convert_graph_def_to_saved_model fs dirExists graph_filepath export_dir).1 →
      gfile_DeleteRecursively dirExists p = .ok ()) ∧
    (∀ g, fs graph_filepath = some g → ∃ call,
      (convert_graph_def_to_saved_model fs dirExists graph_filepath export_dir).1 =
        (if dirExists export_dir then [FsOp.deleteRecursively export_dir] else [])
          ++ [FsOp.simpleSave call] ∧
      (convert_graph_def_to_saved_model fs dirExists graph_filepath export_dir).2 = .ok call) ∧
    (∀ e, (convert_graph_def_to_saved_model fs dirExists graph_filepath export_dir).2 =
        .error e → e = .notFoundError ∧ fs graph_filepath = none) := by
  refine ⟨fun h => ?_, fun h => ?_, fun p hp => ?_, fun h => ?_, fun h p hp => ?_,
    fun p hp => ?_, fun g hg => ?_, fun e he => ?_⟩
  · simp [export_model_cell, h]
  · simp [export_model_cell, h]
  · rcases hb : dirExists (pathJoin model_dir "export") with _ | _
    · simp [export_model_cell, hb] at hp
    · simp [export_model_cell, hb] at hp
      simp [gfile_DeleteRecursively, hp, hb]
  · cases hg : fs graph_filepath <;>
      simp [convert_graph_def_to_saved_model, get_graph_def_from_file, hg, h]
  · cases hg : fs graph_filepath <;>
      simp [convert_graph_def_to_saved_model, get_graph_def_from_file, hg, h] at hp
  · rcases hb : dirExists export_dir with _ | _
    · cases hg : fs graph_filepath <;>
        simp [convert_graph_def_to_saved_model, get_graph_def_from_file, hg, hb] at hp
    · cases hg : fs graph_filepath <;>
        simp [convert_graph_def_to_saved_model, get_graph_def_from_file, hg, hb] at hp <;>
        simp [gfile_DeleteRecursively, hp, hb]
  · refine ⟨⟨export_dir,
      (g.node.filter (fun n => n.op == "Placeholder")).map
        (fun n => (n.name, n.name ++ ":0")),
      [("softmax", "softmax/Softmax:0")]⟩, ?_, ?_⟩ <;>
      simp [convert_graph_def_to_saved_model, get_graph_def_from_file, hg]
  · cases hg : fs graph_filepath with
    | none =>
      simp [convert_graph_def_to_saved_model, get_graph_def_from_file, hg] at he
      exact ⟨he.symm, rfl⟩
    | some g =>
      simp [convert_graph_def_to_saved_model, get_graph_def_from_file, hg] at he

/-- Witness for C2 at concrete directory states and file systems. -/
theorem C2_guarded_overwrite_witness :
    export_model_cell allDirs "m" =
      [FsOp.deleteRecursively (pathJoin "m" "export"),
       FsOp.exportSavedModel (pathJoin "m" "export")] ∧
    export_model_cell noDirs "m" = [FsOp.exportSavedModel (pathJoin "m" "export")] ∧
    (convert_graph_def_to_saved_model (cexFsPh "x") allDirs "g.pb" "/out").1.head? =
      some (FsOp.deleteRecursively "/out") ∧
    (∃ call,
      (convert_graph_def_to_saved_model (cexFsPh "x") noDirs "g.pb" "/out").1 =
        (if noDirs "/out" then [FsOp.deleteRecursively "/out"] else [])
          ++ [FsOp.simpleSave call] ∧
      (convert_graph_def_to_saved_model (cexFsPh "x") noDirs "g.pb" "/out").2 = .ok call) :=
  ⟨(C2_guarded_overwrite allDirs "m" (cexFsPh "x") "g.pb" "/out").1 rfl,
   (C2_guarded_overwrite noDirs "m" (cexFsPh "x") "g.pb" "/out").2.1 rfl,
   (C2_guarded_overwrite allDirs "m" (cexFsPh "x") "g.pb" "/out").2.2.2.1 rfl,
   (C2_guarded_overwrite noDirs "m" (cexFsPh "x") "g.pb" "/out").2.2.2.2.2.2.1
     (phGraph "x") rfl⟩

/-- C3 fails as stated: a success response whose JSON body carries no
predictions field makes predict raise a key error even though the
status is a success status. -/
theorem C3_counterexample :
    isSuccessStatus 200 = true ∧
    (predict (constServer noPredsResponse) [[[0]]] 1).2 =
      .error (.keyError "predictions") :=
  ⟨by decide, rfl⟩

/-- C3 amended: predict raises exactly the http error for every response
with a status in 400 to 599, and for a response with a success status
whose body carries a predictions list of nonempty vectors it returns
normally with the class ids. -/
theorem C3_amended_raise_behavior (server : PostRequest → HttpResponse)
    (instances : List Instance) (version : Nat) :
    (raisesForStatus (server (predictCall instances version)).status = true →
      (predict server instances version).2 =
        .error (.httpError (server (predictCall instances version)).status)) ∧
    (∀ preds, isSuccessStatus (server (predictCall instances version)).status = true →
      (server (predictCall instances version)).body.predictions = some preds →
      (∀ p, p ∈ preds → p ≠ []) →
      (predict server instances version).2 = .ok (preds.map argmaxIdx)) := by
  constructor
  · intro h
    simp [predict, predictResponseToIds, h]
  · intro preds hs hp hne
    have hraise : raisesForStatus (server (predictCall instances version)).status = false := by
      simp [raisesForStatus, isSuccessStatus] at hs ⊢
      omega
    simp [predict, predictResponseToIds, hraise, hp, argmaxList_ok preds hne]

/-- Witness for the amended C3: a server error raises and a well formed
success response returns. -/
theorem C3_amended_raise_behavior_witness :
    (predict (constServer badResponse) [] 1).2 = .error (.httpError 500) ∧
    (predict (constServer okResponse) [] 1).2 = .ok [1] := by
  constructor
  · exact (C3_amended_raise_behavior (constServer badResponse) [] 1).1 (by decide)
  · have h := (C3_amended_raise_behavior (constServer okResponse) [] 1).2
      [[0, 1]] (by decide) rfl (by decide)
    rw [h]
    rfl

/-- C4: predict posts exactly one request, whose JSON payload is exactly
the instances key bound to the given instance list, at the versioned
rest url; and when the response has a success status and carries a
predictions list of nonempty vectors it returns one class id per
prediction, in the same order, each the index of a maximal element of
its prediction. -/
theorem C4_predict_request_and_argmax (server : PostRequest → HttpResponse)
    (instances : List Instance) (version : Nat) (preds : List (List ℚ))
    (hs : isSuccessStatus (server (predictCall instances version)).status = true)
    (hp : (server (predictCall instances version)).body.predictions = some preds)
    (hne : ∀ p, p ∈ preds → p ≠ []) :
    (predict server instances version).1 =
      [⟨predictUrl version, [("instances", instances)]⟩] ∧
    (predict server instances version).2 = .ok (preds.map argmaxIdx) ∧
    (preds.map argmaxIdx).length = preds.length ∧
    (∀ p, p ∈ preds → ∃ v, p[argmaxIdx p]? = some v ∧ ∀ x ∈ p, x ≤ v) := by
  refine ⟨rfl, (C3_amended_raise_behavior server instances version).2 preds hs hp hne,
    List.length_map _ _, fun p hp2 => argmaxIdx_spec p (hne p hp2)⟩

/-- Witness for C4 at a concrete server and instance list. -/
theorem C4_predict_request_and_argmax_witness :
    (predict (constServer okResponse) [[[0]]] 1).1 =
      [⟨predictUrl 1, [("instances", [[[0]]])]⟩] ∧
    (predict (constServer okResponse) [[[0]]] 1).2 = .ok ([[0, 1]].map argmaxIdx) :=
  ⟨(C4_predict_request_and_argmax (constServer okResponse) [[[0]]] 1 [[0, 1]]
      (by decide) rfl (by decide)).1,
   (C4_predict_request_and_argmax (constServer okResponse) [[[0]]] 1 [[0, 1]]
      (by decide) rfl (by decide)).2.1⟩

/-- C5 fails as stated: two runs of convert_graph_def_to_saved_model on
graphs with different Placeholder names hand different input tensor
names to the export call, so the input names are not fixed constants
independent of the graph contents. -/
theorem C5_counterexample :
    ((convert_graph_def_to_saved_model (cexFsPh "x") noDirs "g.pb" "/out").2.map
        SimpleSaveCall.inputs) = .ok [("x", "x:0")] ∧
    ((convert_graph_def_to_saved_model (cexFsPh "y") noDirs "g.pb" "/out").2.map
        SimpleSaveCall.inputs) = .ok [("y", "y:0")] ∧
    ([("x", "x:0")] : List (String × String)) ≠ [("y", "y:0")] :=
  ⟨rfl, rfl, by decide⟩

/-- C5 amended: the conversion re-imports the serialized GraphDef file
and re-exports it with the fixed output tensor name softmax/Softmax:0
under the fixed key softmax, while its input tensor names are computed
from the graph contents: exactly one binding per Placeholder node, of
the node name to that name with suffix :0. -/
theorem C5_amended_fixed_output_graph_inputs (fs : FileSys) (dirExists : String → Bool)
    (graph_filepath export_dir : String) (g : GraphDef) (call : SimpleSaveCall)
    (hread : fs graph_filepath = some g)
    (hcall : (convert_graph_def_to_saved_model fs dirExists graph_filepath export_dir).2 =
      .ok call) :
    call.outputs = [("softmax", "softmax/Softmax:0")] ∧
    call.export_dir = export_dir ∧
    (∀ pr, pr ∈ call.inputs ↔
      ∃ n, n ∈ g.node ∧ n.op = "Placeholder" ∧ pr = (n.name, n.name ++ ":0")) := by
  have hc : call =
      ⟨export_dir,
       (g.node.filter (fun n => n.op == "Placeholder")).map
         (fun n => (n.name, n.name ++ ":0")),
       [("softmax", "softmax/Softmax:0")]⟩ := by
    simp [convert_graph_def_to_saved_model, get_graph_def_from_file, hread] at hcall
    exact hcall.symm
  subst hc
  refine ⟨rfl, rfl, fun pr => ?_⟩
  simp only [List.mem_map, List.mem_filter, beq_iff_eq]
  constructor
  · rintro ⟨n, ⟨hn, hop⟩, rfl⟩
    exact ⟨n, hn, hop, rfl⟩
  · rintro ⟨n, hn, hop, rfl⟩
    exact ⟨n, ⟨hn, hop⟩, rfl⟩

/-- Witness for the amended C5 at a concrete graph file. -/
theorem C5_amended_fixed_output_graph_inputs_witness :
    (⟨"/out", [("x", "x:0")], [("softmax", "softmax/Softmax:0")]⟩ :
        SimpleSaveCall).outputs = [("softmax", "softmax/Softmax:0")] :=
  (C5_amended_fixed_output_graph_inputs (cexFsPh "x") noDirs "g.pb" "/out"
      (phGraph "x")
      ⟨"/out", [("x", "x:0")], [("softmax", "softmax/Softmax:0")]⟩
      rfl rfl).1

/-- Requests of a trace beginning with a request event. -/
theorem requestsOf_cons_request (r : PostRequest) (l : List BenchEvent) :
    requestsOf (BenchEvent.request r :: l) = r :: requestsOf l := by
  simp [requestsOf]

/-- Requests of a trace beginning with a clock reading. -/
theorem requestsOf_cons_clock (t : ℚ) (l : List BenchEvent) :
    requestsOf (BenchEvent.clockRead t :: l) = requestsOf l := by
  simp [requestsOf]

/-- Requests of a concatenated trace. -/
theorem requestsOf_append (l1 l2 : List BenchEvent) :
    requestsOf (l1 ++ l2) = requestsOf l1 ++ requestsOf l2 := by
  simp [requestsOf]

/-- Requests of the empty trace. -/
theorem requestsOf_nil : requestsOf [] = [] := rfl

/-- Requests of a replicated request trace. -/
theorem requestsOf_replicate (k : Nat) (r : PostRequest) :
    requestsOf (List.replicate k (BenchEvent.request r)) = List.replicate k r := by
  induction k with
  | zero => rfl
  | succ n ih =>
    rw [List.replicate_succ, requestsOf_cons_request, ih, List.replicate_succ]

/-- When every remaining response succeeds the loop issues one request
per remaining iteration and ends successfully. -/
theorem benchLoop_all_ok (env : BenchEnv) (version : Nat) (instances : List Instance) :
    ∀ (k idx : Nat) (acc : Option (List Nat)),
      (∀ j, idx ≤ j → j < idx + k → isOkE (predictResponseToIds (env.respond j)) = true) →
      (benchLoop env version instances k idx acc).1 =
        List.replicate k (BenchEvent.request (predictCall instances version)) ∧
      ∃ o, (benchLoop env version instances k idx acc).2 = .ok o := by
  intro k
  induction k with
  | zero => intro idx acc h; exact ⟨rfl, acc, rfl⟩
  | succ n ih =>
    intro idx acc h
    have h0 := h idx (Nat.le_refl idx) (by omega)
    cases hres : predictResponseToIds (env.respond idx) with
    | error e => rw [hres] at h0; simp [isOkE] at h0
    | ok out =>
      have hrec := ih (idx + 1) (some out) (fun j h1 h2 => h j (by omega) (by omega))
      simp only [benchLoop, hres]
      exact ⟨by rw [List.replicate_succ, hrec.1], hrec.2⟩

/-- When the first m responses of the loop succeed and the next one
fails, the loop issues exactly m plus one requests and propagates the
error of the failing one. -/
theorem benchLoop_fails (env : BenchEnv) (version : Nat) (instances : List Instance) :
    ∀ (m k idx : Nat) (acc : Option (List Nat)) (e : PyErr),
      m < k →
      (∀ j, idx ≤ j → j < idx + m → isOkE (predictResponseToIds (env.respond j)) = true) →
      predictResponseToIds (env.respond (idx + m)) = .error e →
      (benchLoop env version instances k idx acc).1 =
        List.replicate (m + 1) (BenchEvent.request (predictCall instances version)) ∧
      (benchLoop env version instances k idx acc).2 = .error e := by
  intro m
  induction m with
  | zero =>
    intro k idx acc e hmk hok herr
    cases k with
    | zero => omega
    | succ n =>
      rw [show idx + 0 = idx from rfl] at herr
      simp [benchLoop, herr]
  | succ m ih =>
    intro k idx acc e hmk hok herr
    cases k with
    | zero => omega
    | succ n =>
      have h0 := hok idx (Nat.le_refl idx) (by omega)
      cases hres : predictResponseToIds (env.respond idx) with
      | error e2 => rw [hres] at h0; simp [isOkE] at h0
      | ok out =>
        have hrec := ih n (idx + 1) (some out) e (by omega)
          (fun j h1 h2 => hok j (by omega) (by omega))
          (by rw [show idx + 1 + m = idx + (m + 1) from by omega]; exact herr)
        simp only [benchLoop, hres]
        exact ⟨by rw [List.replicate_succ, hrec.1], hrec.2⟩

/-- When every response succeeds the benchmark trace is the warm up
request, the first clock reading, one request per loop iteration, and
the second clock reading. -/
theorem benchmark_trace_all_ok (env : BenchEnv) (version batch rpt : Nat)
    (h : ∀ j, j ≤ rpt → isOkE (predictResponseToIds (env.respond j)) = true) :
    (benchmark_inference env version batch rpt).1 =
      BenchEvent.request (predictCall (((List.range batch).map env.evalData).take 1) version)
        :: BenchEvent.clockRead env.t0
        :: (List.replicate rpt
              (BenchEvent.request
                (predictCall ((List.range batch).map env.evalData) version))
            ++ [BenchEvent.clockRead env.t1]) := by
  have h0 := h 0 (Nat.zero_le rpt)
  cases hres : predictResponseToIds (env.respond 0) with
  | error e => rw [hres] at h0; simp [isOkE] at h0
  | ok out =>
    obtain ⟨htr, o, hres2⟩ := benchLoop_all_ok env version
      ((List.range batch).map env.evalData) rpt 1 none
      (fun j h1 h2 => h j (by omega))
    simp only [benchmark_inference, hres]
    rw [htr, hres2]
    rcases o with _ | (_ | ⟨a, as⟩) <;> simp [benchFinish]

/-- A successful benchmark reports the clock difference as elapsed time
and elapsed divided by rpt as average latency. -/
theorem benchmark_ok_result (env : BenchEnv) (version batch rpt : Nat) (r : BenchResult)
    (hr : (benchmark_inference env version batch rpt).2 = .ok r) :
    r.elapsed = env.t1 - env.t0 ∧ r.avgLatency = (env.t1 - env.t0) / (rpt : ℚ) := by
  cases hres : predictResponseToIds (env.respond 0) with
  | error e => simp [benchmark_inference, hres] at hr
  | ok out =>
    simp only [benchmark_inference, hres] at hr
    cases hres2 : (benchLoop env version ((List.range batch).map env.evalData) rpt 1 none).2 with
    | error e2 => rw [hres2] at hr; simp [benchFinish] at hr
    | ok o =>
      rw [hres2] at hr
      rcases o with _ | (_ | ⟨a, as⟩)
      · simp [benchFinish] at hr
      · simp [benchFinish] at hr
      · have hr2 : (⟨env.t1 - env.t0, (env.t1 - env.t0) / (rpt : ℚ),
            (a :: as).length, a⟩ : BenchResult) = r := Except.ok.inj hr
        rw [← hr2]
        exact ⟨rfl, rfl⟩

/-- A failing request, all requests before it having succeeded, makes
the benchmark propagate exactly its error after issuing exactly the
requests up to and including the failing one. -/
theorem benchmark_fails (env : BenchEnv) (version batch rpt idx : Nat) (e : PyErr)
    (hle : idx ≤ rpt)
    (hok : ∀ j, j < idx → isOkE (predictResponseToIds (env.respond j)) = true)
    (herr : predictResponseToIds (env.respond idx) = .error e) :
    (benchmark_inference env version batch rpt).2 = .error e ∧
    (requestsOf (benchmark_inference env version batch rpt).1).length = idx + 1 := by
  cases idx with
  | zero =>
    constructor
    · simp [benchmark_inference, herr]
    · simp [benchmark_inference, herr, requestsOf_cons_request, requestsOf_nil]
  | succ m =>
    have h0 := hok 0 (by omega)
    cases hres : predictResponseToIds (env.respond 0) with
    | error e2 => rw [hres] at h0; simp [isOkE] at h0
    | ok out =>
      have hl := benchLoop_fails env version ((List.range batch).map env.evalData)
        m rpt 1 none e (by omega) (fun j h1 h2 => hok j (by omega))
        (by rw [show 1 + m = m + 1 from by omega]; exact herr)
      constructor
      · simp only [benchmark_inference, hres]
        rw [hl.2]
        simp [benchFinish]
      · simp only [benchmark_inference, hres]
        rw [hl.1, hl.2]
        simp [benchFinish, requestsOf_cons_request, requestsOf_cons_clock,
          requestsOf_replicate]

/-- C7: benchmark_inference loops exactly rpt times issuing the same
POST prediction request on the full batch, measures elapsed wall clock
time across the loop as the difference of the two clock readings, and
reports elapsed divided by rpt as the average latency per batch; it
never retries, and a failing request propagates its error, aborting the
run right after that request. -/
theorem C7_benchmark_loop_and_failure (env : BenchEnv) (version batch rpt : Nat) :
    ((∀ j, j ≤ rpt → isOkE (predictResponseToIds (env.respond j)) = true) →
      requestsOf (benchmark_inference env version batch rpt).1 =
        predictCall (((List.range batch).map env.evalData).take 1) version
          :: List.replicate rpt
              (predictCall ((List.range batch).map env.evalData) version)) ∧
    (∀ r, (benchmark_inference env version batch rpt).2 = .ok r →
      r.elapsed = env.t1 - env.t0 ∧ r.avgLatency = r.elapsed / (rpt : ℚ)) ∧
    (∀ idx e, idx ≤ rpt →
      (∀ j, j < idx → isOkE (predictResponseToIds (env.respond j)) = true) →
      predictResponseToIds (env.respond idx) = .error e →
      (benchmark_inference env version batch rpt).2 = .error e ∧
      (requestsOf (benchmark_inference env version batch rpt).1).length = idx + 1) := by
  refine ⟨fun h => ?_, fun r hr => ?_, fun idx e hle hok herr =>
    benchmark_fails env version batch rpt idx e hle hok herr⟩
  · rw [benchmark_trace_all_ok env version batch rpt h]
    simp [requestsOf_cons_request, requestsOf_cons_clock, requestsOf_append,
      requestsOf_replicate, requestsOf_nil]
  · obtain ⟨h1, h2⟩ := benchmark_ok_result env version batch rpt r hr
    exact ⟨h1, by rw [h1, h2]⟩

/-- Witness for C7: a clean run issues four requests for three timed
iterations, and a run whose second request fails propagates the http
error. -/
theorem C7_benchmark_loop_and_failure_witness :
    (requestsOf (benchmark_inference okEnv 1 2 3).1).length = 3 + 1 ∧
    (benchmark_inference (failAtEnv 1) 1 2 3).2 = .error (.httpError 500) := by
  constructor
  · have h := (C7_benchmark_loop_and_failure okEnv 1 2 3).1 (fun j hj => rfl)
    rw [h]
    simp
  · exact ((C7_benchmark_loop_and_failure (failAtEnv 1) 1 2 3).2.2 1 (.httpError 500)
      (by omega)
      (fun j hj => by
        have hj0 : j = 0 := by omega
        subst hj0
        rfl)
      rfl).1

/-- C9: before the timer starts benchmark_inference issues exactly one
warm up request carrying only the first instance, and that request is
untimed: the trace begins with it, followed by the first clock reading,
the rpt timed full batch requests and the second clock reading, so a
clean run issues rpt plus one requests in total and the reported elapsed
time, the difference of the two clock readings, excludes the warm up. -/
theorem C9_warmup_untimed (env : BenchEnv) (version batch rpt : Nat)
    (hb : 0 < batch)
    (h : ∀ j, j ≤ rpt → isOkE (predictResponseToIds (env.respond j)) = true) :
    (benchmark_inference env version batch rpt).1 =
      BenchEvent.request (predictCall [env.evalData 0] version)
        :: BenchEvent.clockRead env.t0
        :: (List.replicate rpt
              (BenchEvent.request
                (predictCall ((List.range batch).map env.evalData) version))
            ++ [BenchEvent.clockRead env.t1]) ∧
    (requestsOf (benchmark_inference env version batch rpt).1).length = rpt + 1 ∧
    (∀ r, (benchmark_inference env version batch rpt).2 = .ok r →
      r.elapsed = env.t1 - env.t0) := by
  have htake : ((List.range batch).map env.evalData).take 1 = [env.evalData 0] := by
    rw [List.take_one, List.head?_eq_getElem?, List.getElem?_map]
    simp [List.getElem?_range, hb]
  have htr := benchmark_trace_all_ok env version batch rpt h
  rw [htake] at htr
  refine ⟨htr, ?_, fun r hr => (benchmark_ok_result env version batch rpt r hr).1⟩
  rw [htr]
  simp [requestsOf_cons_request, requestsOf_cons_clock, requestsOf_append,
    requestsOf_replicate, requestsOf_nil]

/-- Witness for C9: with one instance and two timed iterations a clean
run issues three requests. -/
theorem C9_warmup_untimed_witness :
    (requestsOf (benchmark_inference okEnv 1 1 2).1).length = 2 + 1 :=
  (C9_warmup_untimed okEnv 1 1 2 (by decide) (fun j hj => rfl)).2.1

end ModelOpt
